import Mathlib

/-!
Shallow embedding of `src/risk/QuantumRiskValidator.py` (class
`QuantumRiskValidator`).

Modelling conventions:
* Real-valued (Python float) quantities are modelled as rationals `ℚ`;
  the claims settled over `ℚ` never depend on rounding.
* Where IEEE special values (NaN, ±Infinity) are what a claim is about,
  a separate extended type `ERat` is used with IEEE propagation rules.
* `numpy` randomness (`np.random.randint`, `np.random.rand`) is modelled
  by an explicit oracle supplying, per annealing run, the initial binary
  state, and per iteration the flipped index and the Boolean outcome of
  the Metropolis comparison `rand() < exp((curE - newE) / temp)`.
  Theorems quantifying over all oracles cover every outcome the real
  random draws can produce.
* `best_energy = np.inf` before any run has finished is modelled as
  `Option ℚ` with `none` standing for `+∞`.
-/

namespace RiskEye

/-- `Order` dict: the fields read by the validator
(`order['size']`, `order['expected_profit']`). -/
structure Order where
  size : ℚ
  expected_profit : ℚ
deriving DecidableEq

/-- `risk_metrics` dict: the fields read by `build_qubo_model`. -/
structure RiskMetrics where
  volatility : ℚ
  liquidity : ℚ
  correlation : ℚ
  margin_requirement : ℚ
deriving DecidableEq

/-- `market_data` is accepted by the Python methods but never read;
an empty structure records exactly that. -/
structure MarketData where
deriving DecidableEq

/-- A QUBO matrix `qubo[i, j]`, as the function giving its entries. -/
def QuboM : Type := ℕ → ℕ → ℚ

/-- `_calculate_energy(state, qubo)`:
`energy = 0.0`; `for i in range(num_vars)` add `qubo[i,i] * state[i]`,
then `for j in range(i+1, num_vars)` add `qubo[i,j]*state[i]*state[j]`. -/
def calculate_energy (state : List ℚ) (qubo : QuboM) : ℚ :=
  let num_vars := state.length
  (List.range num_vars).foldl
    (fun energy i =>
      (List.range' (i + 1) (num_vars - (i + 1))).foldl
        (fun e j => e + qubo i j * state.getD i 0 * state.getD j 0)
        (energy + qubo i i * state.getD i 0))
    0

/-- Single entry update of a QUBO matrix, modelling `qubo[a, b] = v`. -/
def updQ (q : QuboM) (a b : ℕ) (v : ℚ) : QuboM :=
  fun i j => if i = a ∧ j = b then v else q i j

/-- `build_qubo_model(self, order, market_data, risk_metrics)`:
start from `np.zeros((4, 4))` and perform the seven assignments of the
source, in order. `market_data` is a parameter the body never reads. -/
def build_qubo_model (order : Order) (_market_data : MarketData)
    (risk_metrics : RiskMetrics) : QuboM :=
  let position_size := order.size
  let volatility := risk_metrics.volatility
  let liquidity := risk_metrics.liquidity
  let correlation := risk_metrics.correlation
  let margin_requirement := risk_metrics.margin_requirement
  let qubo : QuboM := fun _ _ => 0
  let qubo := updQ qubo 0 0 (-(23/10) * order.expected_profit)
  let qubo := updQ qubo 1 1 ((9/5) * position_size * volatility)
  let qubo := updQ qubo 2 2 ((1/2) * liquidity)
  let qubo := updQ qubo 3 3 ((6/5) * (1 - margin_requirement))
  let qubo := updQ qubo 0 1 ((1/2) * volatility)
  let qubo := updQ qubo 0 2 ((3/10) * liquidity)
  let qubo := updQ qubo 0 3 ((1/5) * correlation)
  qubo

/-- The random draws consumed by one annealing run:
`initState` models `np.random.randint(0, 2, num_vars)`, `flipIdx k` models
the `np.random.randint(0, num_vars)` of iteration `k`, and `acceptWorse k`
models the outcome of `np.random.rand() < np.exp((current_energy -
new_energy) / local_temp)` at iteration `k` (evaluated only when the move
is not strictly improving, because Python `or` short-circuits). -/
structure RunOracle where
  initState : List ℚ
  flipIdx : ℕ → ℕ
  acceptWorse : ℕ → Bool

/-- `new_state = current_state.copy(); new_state[var_idx] = 1 - new_state[var_idx]`. -/
def flipState (s : List ℚ) (i : ℕ) : List ℚ :=
  s.set i (1 - s.getD i 0)

/-- The per-run mutable variables of `parallel_simulated_annealing`. -/
structure RunState where
  current : List ℚ
  currentE : ℚ
  localBest : List ℚ
  localBestE : ℚ
  localTemp : ℚ

/-- One iteration of the inner `for __ in range(num_iterations)` loop:
propose a single flip, accept by `new_energy < current_energy or
rand() < exp(...)`, update the local best on strict improvement, then
cool `local_temp *= cooling_rate`. -/
def annealStep (qubo : QuboM) (cooling_rate : ℚ) (o : RunOracle) (k : ℕ)
    (st : RunState) : RunState :=
  let new_state := flipState st.current (o.flipIdx k)
  let new_energy := calculate_energy new_state qubo
  if new_energy < st.currentE ∨ o.acceptWorse k then
    if new_energy < st.localBestE then
      ⟨new_state, new_energy, new_state, new_energy, st.localTemp * cooling_rate⟩
    else
      ⟨new_state, new_energy, st.localBest, st.localBestE, st.localTemp * cooling_rate⟩
  else
    ⟨st.current, st.currentE, st.localBest, st.localBestE, st.localTemp * cooling_rate⟩

/-- One full annealing run: initialize from the oracle's random state and
iterate `annealStep` for `num_iterations` steps. -/
def runAnneal (qubo : QuboM) (num_iterations : ℕ) (temp cooling_rate : ℚ)
    (o : RunOracle) : RunState :=
  let current_state := o.initState
  let current_energy := calculate_energy current_state qubo
  (List.range num_iterations).foldl
    (fun st k => annealStep qubo cooling_rate o k st)
    ⟨current_state, current_energy, current_state, current_energy, temp⟩

/-- `local_best_energy < best_energy` where `best_energy` starts at
`np.inf` (`none`). -/
def ltInf (x : ℚ) : Option ℚ → Bool
  | none => true
  | some y => decide (x < y)

/-- `parallel_simulated_annealing(self, qubo, num_iterations=1000,
temp=100.0, cooling_rate=0.99)`: run `self.num_threads` independent
annealing chains (the oracle's run `r` supplying run `r`'s draws) and keep
the best `(best_state, best_energy)`, initialized to
`(np.zeros(num_vars), np.inf)`. `num_vars = len(qubo)` is passed
explicitly since the matrix is embedded as a function. -/
def parallel_simulated_annealing (oracle : ℕ → RunOracle) (num_threads : ℕ)
    (num_vars : ℕ) (qubo : QuboM) (num_iterations : ℕ)
    (temp cooling_rate : ℚ) : List ℚ × Option ℚ :=
  (List.range num_threads).foldl
    (fun best r =>
      let rs := runAnneal qubo num_iterations temp cooling_rate (oracle r)
      if ltInf rs.localBestE best.2 then (rs.localBest, some rs.localBestE)
      else best)
    (List.replicate num_vars 0, none)

/-- Validator configuration: `self.risk_threshold` (default `-1.0`) and
`self.num_threads` (default `multiprocessing.cpu_count()`). -/
structure ValidatorConfig where
  risk_threshold : ℚ
  num_threads : ℕ

/-- `best_energy < self.risk_threshold` with `best_energy : Option ℚ`
(`none` = `np.inf`, and `inf < t` is false). -/
def ltThreshold (e : Option ℚ) (t : ℚ) : Bool :=
  match e with
  | none => false
  | some x => decide (x < t)

/-- `validate_order(self, order, market_data, risk_metrics)`: build the
QUBO model, solve it with the default annealing parameters
(`num_iterations=1000`, `temp=100.0`, `cooling_rate=0.99`), and return
`is_approved = best_energy < self.risk_threshold`. The measured latency
is only printed; the sole return value is the Boolean. -/
def validate_order (cfg : ValidatorConfig) (oracle : ℕ → RunOracle)
    (order : Order) (market_data : MarketData)
    (risk_metrics : RiskMetrics) : Bool :=
  let qubo := build_qubo_model order market_data risk_metrics
  let r := parallel_simulated_annealing oracle cfg.num_threads 4 qubo
    1000 100 (99/100)
  ltThreshold r.2 cfg.risk_threshold

/-- `batch_validate_orders(self, orders, market_data, risk_metrics)`:
`results = []`, then append `validate_order(order, ...)` for each order in
input order. Each call draws fresh randomness from the global generator,
modelled by the per-slot oracle `oracleSeq k` for the `k`-th order. -/
def batch_validate_orders (cfg : ValidatorConfig)
    (oracleSeq : ℕ → ℕ → RunOracle) (k : ℕ) (orders : List Order)
    (market_data : MarketData) (risk_metrics : RiskMetrics) : List Bool :=
  match orders with
  | [] => []
  | o :: rest =>
      validate_order cfg (oracleSeq k) o market_data risk_metrics ::
        batch_validate_orders cfg oracleSeq (k + 1) rest market_data risk_metrics

/-! ### IEEE special-value model

`ERat` refines the plain-`ℚ` model with the IEEE-754 special values NaN
and ±Infinity, with the propagation rules `numpy` float64 arithmetic
follows. Rounding is irrelevant to the claims settled over it, so finite
arithmetic is exact. -/

/-- A float64 value: a finite rational, `+inf`, `-inf`, or NaN. -/
inductive ERat where
  | finite : ℚ → ERat
  | pinf : ERat
  | ninf : ERat
  | nan : ERat
deriving DecidableEq

namespace ERat

/-- IEEE subtraction: NaN propagates; `inf - inf` of equal signs is NaN. -/
def sub : ERat → ERat → ERat
  | nan, _ => nan
  | _, nan => nan
  | pinf, pinf => nan
  | pinf, _ => pinf
  | ninf, ninf => nan
  | ninf, _ => ninf
  | finite _, pinf => ninf
  | finite _, ninf => pinf
  | finite x, finite y => finite (x - y)

/-- IEEE multiplication: NaN propagates; `inf * 0` is NaN; otherwise
infinities keep the product's sign. -/
def mul : ERat → ERat → ERat
  | nan, _ => nan
  | _, nan => nan
  | pinf, pinf => pinf
  | pinf, ninf => ninf
  | ninf, pinf => ninf
  | ninf, ninf => pinf
  | pinf, finite y => if y = 0 then nan else if 0 < y then pinf else ninf
  | ninf, finite y => if y = 0 then nan else if 0 < y then ninf else pinf
  | finite x, pinf => if x = 0 then nan else if 0 < x then pinf else ninf
  | finite x, ninf => if x = 0 then nan else if 0 < x then ninf else pinf
  | finite x, finite y => finite (x * y)

/-- IEEE division (with `ℚ`'s single zero playing `+0`): NaN propagates;
`0/0` and `inf/inf` are NaN; a nonzero finite over zero is a signed
infinity — this is exactly what `numpy` does for `x / 0.0`. -/
def div : ERat → ERat → ERat
  | nan, _ => nan
  | _, nan => nan
  | pinf, pinf => nan
  | pinf, ninf => nan
  | ninf, pinf => nan
  | ninf, ninf => nan
  | pinf, finite y => if 0 ≤ y then pinf else ninf
  | ninf, finite y => if 0 ≤ y then ninf else pinf
  | finite _, pinf => finite 0
  | finite _, ninf => finite 0
  | finite x, finite y =>
      if y = 0 then (if x = 0 then nan else if 0 < x then pinf else ninf)
      else finite (x / y)

/-- IEEE ordered less-than: any comparison with NaN is false. -/
def lt : ERat → ERat → Bool
  | nan, _ => false
  | _, nan => false
  | ninf, ninf => false
  | ninf, _ => true
  | pinf, _ => false
  | finite _, pinf => true
  | finite _, ninf => false
  | finite x, finite y => decide (x < y)

/-- `np.exp` on float64: `exp(-inf) = 0`, `exp(inf) = inf`,
`exp(NaN) = NaN`. The transcendental finite case is kept abstract as the
parameter `expFin`, since no claim settled here ever evaluates it. -/
def exp (expFin : ℚ → ℚ) : ERat → ERat
  | nan => nan
  | ninf => finite 0
  | pinf => pinf
  | finite x => finite (expFin x)

end ERat

/-- The acceptance test of line 36 of the source, over float64 values:
`new_energy < current_energy or rand < np.exp((current_energy -
new_energy) / local_temp)`, with Python `or` short-circuit (the
exponential is evaluated only when the first disjunct is false). -/
def metropolisAccept (expFin : ℚ → ℚ)
    (current_energy new_energy local_temp rand : ERat) : Bool :=
  if ERat.lt new_energy current_energy then true
  else ERat.lt rand
    (ERat.exp expFin (ERat.div (ERat.sub current_energy new_energy) local_temp))

/-- `Order` with float64 fields, for the claims about non-finite input. -/
structure OrderE where
  size : ERat
  expected_profit : ERat

/-- `risk_metrics` with float64 fields. -/
structure RiskMetricsE where
  volatility : ERat
  liquidity : ERat
  correlation : ERat
  margin_requirement : ERat

/-- A QUBO matrix over float64 values. -/
def QuboME : Type := ℕ → ℕ → ERat

/-- Entry update over float64 matrices. -/
def updQE (q : QuboME) (a b : ℕ) (v : ERat) : QuboME :=
  fun i j => if i = a ∧ j = b then v else q i j

/-- `build_qubo_model` over float64 values: the same seven assignments,
with `numpy` IEEE arithmetic; the source performs no finiteness check
before (or during) the construction. -/
def build_qubo_modelE (order : OrderE) (_market_data : MarketData)
    (risk_metrics : RiskMetricsE) : QuboME :=
  let position_size := order.size
  let volatility := risk_metrics.volatility
  let liquidity := risk_metrics.liquidity
  let correlation := risk_metrics.correlation
  let margin_requirement := risk_metrics.margin_requirement
  let qubo : QuboME := fun _ _ => ERat.finite 0
  let qubo := updQE qubo 0 0 (ERat.mul (ERat.finite (-(23/10))) order.expected_profit)
  let qubo := updQE qubo 1 1 (ERat.mul (ERat.mul (ERat.finite (9/5)) position_size) volatility)
  let qubo := updQE qubo 2 2 (ERat.mul (ERat.finite (1/2)) liquidity)
  let qubo := updQE qubo 3 3 (ERat.mul (ERat.finite (6/5)) (ERat.sub (ERat.finite 1) margin_requirement))
  let qubo := updQE qubo 0 1 (ERat.mul (ERat.finite (1/2)) volatility)
  let qubo := updQE qubo 0 2 (ERat.mul (ERat.finite (3/10)) liquidity)
  let qubo := updQE qubo 0 3 (ERat.mul (ERat.finite (1/5)) correlation)
  qubo

/-- Validity of the annealing tunables, as the specification defines it:
`cooling_rate` in the open interval `(0,1)`, `num_iterations ≥ 0`,
`num_parallel_runs ≥ 1`. The source performs no such check. -/
def configValid (num_iterations : ℤ) (cooling_rate : ℚ)
    (num_parallel_runs : ℤ) : Bool :=
  decide (0 < cooling_rate) && decide (cooling_rate < 1) &&
    decide (0 ≤ num_iterations) && decide (1 ≤ num_parallel_runs)

/-! ### Theorems -/

/-- A diagonal QUBO matrix, for the spec's `Q = diag(-5, 3, 2, 4)` test. -/
def quboDiag (d0 d1 d2 d3 : ℚ) : QuboM := fun i j =>
  if i = j then
    (if i = 0 then d0 else if i = 1 then d1 else if i = 2 then d2
     else if i = 3 then d3 else 0)
  else 0

/-- `_calculate_energy` on an explicit length-4 state, fully unfolded. -/
lemma calculate_energy_four (a b c d : ℚ) (Q : QuboM) :
    calculate_energy [a, b, c, d] Q =
      0 + Q 0 0 * a + Q 0 1 * a * b + Q 0 2 * a * c + Q 0 3 * a * d
        + Q 1 1 * b + Q 1 2 * b * c + Q 1 3 * b * d
        + Q 2 2 * c + Q 2 3 * c * d
        + Q 3 3 * d := rfl

/-- C1: for every binary state vector of length 4 and every 4x4 QUBO
matrix, `_calculate_energy` returns `Σ_i Q[i,i]*state[i] +
Σ_{i<j} Q[i,j]*state[i]*state[j]`; for `state=[1,0,0,0]` and
`Q=diag(-5,3,2,4)` it returns `-5`, and for `state=[0,0,0,0]` it returns
`0` for any `Q`. -/
theorem energy_formula_c1 :
    (∀ (state : List ℚ) (qubo : QuboM), state.length = 4 →
        (∀ x ∈ state, x = 0 ∨ x = 1) →
        calculate_energy state qubo =
          (∑ i in Finset.range 4, qubo i i * state.getD i 0) +
            ∑ i in Finset.range 4, ∑ j in Finset.Ico (i + 1) 4,
              qubo i j * state.getD i 0 * state.getD j 0) ∧
    calculate_energy [1, 0, 0, 0] (quboDiag (-5) 3 2 4) = -5 ∧
    (∀ qubo : QuboM, calculate_energy [0, 0, 0, 0] qubo = 0) := by
  refine ⟨?_, by rw [calculate_energy_four]; norm_num [quboDiag], ?_⟩
  · rintro state qubo h4 -
    rcases state with _ | ⟨a, _ | ⟨b, _ | ⟨c, _ | ⟨d, _ | ⟨e, tl⟩⟩⟩⟩⟩ <;>
      simp at h4
    rw [calculate_energy_four]
    simp only [Finset.sum_Ico_eq_sum_range]
    norm_num [Finset.sum_range_succ, Finset.sum_range_zero]
    ring
  · intro qubo
    rw [calculate_energy_four]
    ring

/-- C1 witness: the general formula instantiated at a concrete binary
state and matrix. -/
theorem energy_formula_c1_witness :
    calculate_energy [1, 1, 0, 1] (quboDiag (-5) 3 2 4) =
      (∑ i in Finset.range 4,
        quboDiag (-5) 3 2 4 i i * ([1, 1, 0, 1] : List ℚ).getD i 0) +
        ∑ i in Finset.range 4, ∑ j in Finset.Ico (i + 1) 4,
          quboDiag (-5) 3 2 4 i j * ([1, 1, 0, 1] : List ℚ).getD i 0 *
            ([1, 1, 0, 1] : List ℚ).getD j 0 :=
  energy_formula_c1.1 [1, 1, 0, 1] (quboDiag (-5) 3 2 4) (by decide) (by decide)

/-- C2: `build_qubo_model` fills exactly the seven documented entries,
leaves the other nine of the 4x4 matrix zero, and takes the documented
values on the spec's concrete example. -/
theorem build_qubo_entries_c2 (o : Order) (md : MarketData) (rm : RiskMetrics) :
    build_qubo_model o md rm 0 0 = -(23/10) * o.expected_profit ∧
    build_qubo_model o md rm 1 1 = (9/5) * o.size * rm.volatility ∧
    build_qubo_model o md rm 2 2 = (1/2) * rm.liquidity ∧
    build_qubo_model o md rm 3 3 = (6/5) * (1 - rm.margin_requirement) ∧
    build_qubo_model o md rm 0 1 = (1/2) * rm.volatility ∧
    build_qubo_model o md rm 0 2 = (3/10) * rm.liquidity ∧
    build_qubo_model o md rm 0 3 = (1/5) * rm.correlation ∧
    build_qubo_model o md rm 1 0 = 0 ∧
    build_qubo_model o md rm 1 2 = 0 ∧
    build_qubo_model o md rm 1 3 = 0 ∧
    build_qubo_model o md rm 2 0 = 0 ∧
    build_qubo_model o md rm 2 1 = 0 ∧
    build_qubo_model o md rm 2 3 = 0 ∧
    build_qubo_model o md rm 3 0 = 0 ∧
    build_qubo_model o md rm 3 1 = 0 ∧
    build_qubo_model o md rm 3 2 = 0 ∧
    build_qubo_model ⟨10, 2⟩ ⟨⟩ ⟨1/10, 2/10, 3/10, 5/10⟩ 0 0 = -(23/5) ∧
    build_qubo_model ⟨10, 2⟩ ⟨⟩ ⟨1/10, 2/10, 3/10, 5/10⟩ 1 1 = 9/5 ∧
    build_qubo_model ⟨10, 2⟩ ⟨⟩ ⟨1/10, 2/10, 3/10, 5/10⟩ 3 3 = 3/5 :=
  ⟨rfl, rfl, rfl, rfl, rfl, rfl, rfl, rfl, rfl, rfl, rfl, rfl, rfl, rfl,
   rfl, rfl, by norm_num [build_qubo_model, updQ],
   by norm_num [build_qubo_model, updQ], by norm_num [build_qubo_model, updQ]⟩

/-- C9: the energy of a length-4 binary state depends only on the
diagonal and strict-upper-triangle entries of the matrix; lower-triangle
entries never affect the result. -/
theorem energy_lower_triangle_c9 (state : List ℚ) (Q1 Q2 : QuboM)
    (h4 : state.length = 4) (hbin : ∀ x ∈ state, x = 0 ∨ x = 1)
    (hdiag : ∀ i, i < 4 → Q1 i i = Q2 i i)
    (hupper : ∀ j, j < 4 → ∀ i, i < j → Q1 i j = Q2 i j) :
    calculate_energy state Q1 = calculate_energy state Q2 := by
  rcases state with _ | ⟨a, _ | ⟨b, _ | ⟨c, _ | ⟨d, _ | ⟨e, tl⟩⟩⟩⟩⟩ <;>
    simp at h4
  rw [calculate_energy_four, calculate_energy_four,
    hdiag 0 (by norm_num), hdiag 1 (by norm_num), hdiag 2 (by norm_num),
    hdiag 3 (by norm_num),
    hupper 1 (by norm_num) 0 (by norm_num),
    hupper 2 (by norm_num) 0 (by norm_num),
    hupper 3 (by norm_num) 0 (by norm_num),
    hupper 2 (by norm_num) 1 (by norm_num),
    hupper 3 (by norm_num) 1 (by norm_num),
    hupper 3 (by norm_num) 2 (by norm_num)]

/-- C9 witness: two concrete matrices differing only below the diagonal
give the same energy on a concrete binary state. -/
theorem energy_lower_triangle_c9_witness :
    calculate_energy [1, 1, 1, 1]
        (fun i j => if i = 1 ∧ j = 0 then 7 else 0) =
      calculate_energy [1, 1, 1, 1] (fun _ _ => 0) :=
  energy_lower_triangle_c9 [1, 1, 1, 1]
    (fun i j => if i = 1 ∧ j = 0 then 7 else 0) (fun _ _ => 0)
    (by decide) (by decide) (by decide) (by decide)

/-! ### Concrete oracles and closed-form annealing runs

`validate_order` always runs 1000 iterations (the source defaults), so
closed evaluations are obtained analytically: for the oracles below every
proposal after some point is rejected and the run is frozen. -/

/-- Oracle whose runs start at `[0,0,0,0]`, always propose flipping
index 0, and always fail the Metropolis draw. -/
def oracleFlip0 : ℕ → RunOracle := fun _ =>
  ⟨[0, 0, 0, 0], fun _ => 0, fun _ => false⟩

/-- Oracle whose runs start at `[0,0,0,0]`, always propose flipping
index 1, and always fail the Metropolis draw. -/
def oracleFlip1 : ℕ → RunOracle := fun _ =>
  ⟨[0, 0, 0, 0], fun _ => 1, fun _ => false⟩

/-- A concrete order: `size = 0`, `expected_profit = 1`. -/
def ord0 : Order := ⟨0, 1⟩

/-- Concrete risk metrics making every QUBO entry except `Q[0,0]` zero. -/
def rm0 : RiskMetrics := ⟨0, 0, 0, 1⟩

/-- The (empty) market-data value. -/
def md0 : MarketData := ⟨⟩

/-- A rejected proposal leaves everything but the temperature unchanged. -/
lemma annealStep_rejected (qubo : QuboM) (c : ℚ) (o : RunOracle) (k : ℕ)
    (st : RunState) (hrej : o.acceptWorse k = false)
    (hge : ¬ calculate_energy (flipState st.current (o.flipIdx k)) qubo <
      st.currentE) :
    annealStep qubo c o k st =
      ⟨st.current, st.currentE, st.localBest, st.localBestE,
        st.localTemp * c⟩ := by
  unfold annealStep
  rw [if_neg]
  simp [hrej, hge]

/-- A run whose proposals are all rejected is frozen: only the
temperature changes over any tail of the iteration loop. -/
lemma foldl_annealStep_frozen (qubo : QuboM) (c : ℚ) (o : RunOracle)
    (cur : List ℚ) (curE : ℚ) (lb : List ℚ) (lbE : ℚ)
    (hrej : ∀ k, o.acceptWorse k = false)
    (hge : ∀ k, ¬ calculate_energy (flipState cur (o.flipIdx k)) qubo < curE) :
    ∀ (l : List ℕ) (t : ℚ), ∃ t' : ℚ,
      l.foldl (fun st k => annealStep qubo c o k st) ⟨cur, curE, lb, lbE, t⟩ =
        ⟨cur, curE, lb, lbE, t'⟩ := by
  intro l
  induction l with
  | nil => exact fun t => ⟨t, rfl⟩
  | cons x xs ih =>
      intro t
      rw [List.foldl_cons,
        annealStep_rejected qubo c o x ⟨cur, curE, lb, lbE, t⟩ (hrej x) (hge x)]
      exact ih (t * c)

/-- With one thread, the search returns the single run's local best. -/
lemma sa_one_thread (oracle : ℕ → RunOracle) (num_vars : ℕ) (qubo : QuboM)
    (n : ℕ) (t c : ℚ) :
    parallel_simulated_annealing oracle 1 num_vars qubo n t c =
      ((runAnneal qubo n t c (oracle 0)).localBest,
        some (runAnneal qubo n t c (oracle 0)).localBestE) := by
  unfold parallel_simulated_annealing
  have h1 : List.range 1 = [0] := rfl
  rw [h1, List.foldl_cons, List.foldl_nil]
  simp [ltInf]

/-- Closed form of a run under `oracleFlip0` on the QUBO of `ord0` and
`rm0`: the first proposal `[1,0,0,0]` (energy `-23/10`) is accepted,
every later proposal flips back to `[0,0,0,0]` (energy `0`) and is
rejected, so the run is frozen at `([1,0,0,0], -23/10)`. -/
lemma runAnneal_flip0 (m : ℕ) (t c : ℚ) :
    ∃ t' : ℚ, runAnneal (build_qubo_model ord0 md0 rm0) (m + 1) t c
        (oracleFlip0 0) =
      ⟨[1, 0, 0, 0], -(23/10), [1, 0, 0, 0], -(23/10), t'⟩ := by
  have hE0 : calculate_energy [0, 0, 0, 0] (build_qubo_model ord0 md0 rm0) = 0 := by
    rw [calculate_energy_four]; norm_num [build_qubo_model, updQ, ord0, rm0]
  have hE1 : calculate_energy [1, 0, 0, 0] (build_qubo_model ord0 md0 rm0) =
      -(23/10) := by
    rw [calculate_energy_four]; norm_num [build_qubo_model, updQ, ord0, rm0]
  have hflip : flipState [0, 0, 0, 0] 0 = [1, 0, 0, 0] := by
    norm_num [flipState]
  have hflipback : flipState [1, 0, 0, 0] 0 = [0, 0, 0, 0] := by
    norm_num [flipState]
  have hstep : ∀ t' : ℚ,
      annealStep (build_qubo_model ord0 md0 rm0) c (oracleFlip0 0) 0
          ⟨[0, 0, 0, 0], 0, [0, 0, 0, 0], 0, t'⟩ =
        ⟨[1, 0, 0, 0], -(23/10), [1, 0, 0, 0], -(23/10), t' * c⟩ := by
    intro t'
    unfold annealStep
    simp only [oracleFlip0, hflip, hE1]
    norm_num
  have hfrozen := foldl_annealStep_frozen (build_qubo_model ord0 md0 rm0) c
    (oracleFlip0 0) [1, 0, 0, 0] (-(23/10)) [1, 0, 0, 0] (-(23/10))
    (fun _ => rfl)
    (fun k => by
      show ¬ calculate_energy (flipState [1, 0, 0, 0] 0) _ < _
      rw [hflipback, hE0]
      norm_num)
  simp only [runAnneal]
  rw [show (oracleFlip0 0).initState = [0, 0, 0, 0] from rfl, hE0,
    List.range_succ_eq_map, List.foldl_cons, hstep t]
  exact hfrozen ((List.range m).map Nat.succ) (t * c)

/-- Closed form of a run under `oracleFlip1` on the same QUBO: every
proposal `[0,1,0,0]` has energy `0`, never strictly below the current
energy `0`, so nothing is ever accepted and the run stays at
`([0,0,0,0], 0)`. -/
lemma runAnneal_flip1 (n : ℕ) (t c : ℚ) :
    ∃ t' : ℚ, runAnneal (build_qubo_model ord0 md0 rm0) n t c
        (oracleFlip1 0) =
      ⟨[0, 0, 0, 0], 0, [0, 0, 0, 0], 0, t'⟩ := by
  have hE0 : calculate_energy [0, 0, 0, 0] (build_qubo_model ord0 md0 rm0) = 0 := by
    rw [calculate_energy_four]; norm_num [build_qubo_model, updQ, ord0, rm0]
  have hE1 : calculate_energy [0, 1, 0, 0] (build_qubo_model ord0 md0 rm0) = 0 := by
    rw [calculate_energy_four]; norm_num [build_qubo_model, updQ, ord0, rm0]
  have hflip : flipState [0, 0, 0, 0] 1 = [0, 1, 0, 0] := by
    norm_num [flipState]
  have hfrozen := foldl_annealStep_frozen (build_qubo_model ord0 md0 rm0) c
    (oracleFlip1 0) [0, 0, 0, 0] 0 [0, 0, 0, 0] 0
    (fun _ => rfl)
    (fun k => by
      show ¬ calculate_energy (flipState [0, 0, 0, 0] 1) _ < _
      rw [hflip, hE1]
      norm_num)
  simp only [runAnneal]
  rw [show (oracleFlip1 0).initState = [0, 0, 0, 0] from rfl, hE0]
  exact hfrozen (List.range n) t

/-- The search result under `oracleFlip0` on the QUBO of `ord0`, `rm0`. -/
lemma sa_flip0_result (n : ℕ) (hn : 1 ≤ n) (t c : ℚ) :
    parallel_simulated_annealing oracleFlip0 1 4
        (build_qubo_model ord0 md0 rm0) n t c =
      ([1, 0, 0, 0], some (-(23/10))) := by
  obtain ⟨m, rfl⟩ : ∃ m, n = m + 1 :=
    ⟨n - 1, (Nat.succ_pred_eq_of_pos hn).symm⟩
  obtain ⟨t', ht'⟩ := runAnneal_flip0 m t c
  rw [sa_one_thread, ht']

/-- The search result under `oracleFlip1` on the QUBO of `ord0`, `rm0`. -/
lemma sa_flip1_result (n : ℕ) (t c : ℚ) :
    parallel_simulated_annealing oracleFlip1 1 4
        (build_qubo_model ord0 md0 rm0) n t c =
      ([0, 0, 0, 0], some 0) := by
  obtain ⟨t', ht'⟩ := runAnneal_flip1 n t c
  rw [sa_one_thread, ht']

/-- C3: `is_approved = best_energy < self.risk_threshold` is a strict
comparison: approval holds exactly when the best energy is strictly below
the threshold, energy equal to the threshold is rejected, and energy
`threshold - ε` with `ε > 0` is approved. -/
theorem threshold_strict_c3 (cfg : ValidatorConfig) (oracle : ℕ → RunOracle)
    (o : Order) (md : MarketData) (rm : RiskMetrics) (e : ℚ)
    (h : (parallel_simulated_annealing oracle cfg.num_threads 4
        (build_qubo_model o md rm) 1000 100 (99/100)).2 = some e) :
    (validate_order cfg oracle o md rm = true ↔ e < cfg.risk_threshold) ∧
    (e = cfg.risk_threshold → validate_order cfg oracle o md rm = false) ∧
    (∀ ε : ℚ, 0 < ε → e = cfg.risk_threshold - ε →
      validate_order cfg oracle o md rm = true) := by
  have hv : validate_order cfg oracle o md rm =
      decide (e < cfg.risk_threshold) := by
    simp only [validate_order]
    rw [h]
    rfl
  refine ⟨?_, ?_, ?_⟩
  · rw [hv]; simp
  · intro he; rw [hv, he]; simp
  · intro ε hε he; rw [hv, he]; simp; linarith

/-- C3 witness: with threshold `-1` and a search that finds energy
`-23/10 < -1`, the order is approved. -/
theorem threshold_strict_c3_witness :
    validate_order ⟨-1, 1⟩ oracleFlip0 ord0 md0 rm0 = true := by
  have h : (parallel_simulated_annealing oracleFlip0 1 4
      (build_qubo_model ord0 md0 rm0) 1000 100 (99/100)).2 =
      some (-(23/10)) := by
    rw [sa_flip0_result 1000 (by norm_num) 100 (99/100)]
  exact (threshold_strict_c3 ⟨-1, 1⟩ oracleFlip0 ord0 md0 rm0 (-(23/10))
    h).1.mpr (by norm_num)

/-- C4 (amended): `validate_order` returns only the approval Boolean
`best_energy < risk_threshold`; neither the energy nor the latency is part
of the return value. -/
theorem validate_returns_bool_c4 (cfg : ValidatorConfig)
    (oracle : ℕ → RunOracle) (o : Order) (md : MarketData)
    (rm : RiskMetrics) (e : ℚ)
    (h : (parallel_simulated_annealing oracle cfg.num_threads 4
        (build_qubo_model o md rm) 1000 100 (99/100)).2 = some e) :
    validate_order cfg oracle o md rm = decide (e < cfg.risk_threshold) := by
  simp only [validate_order]
  rw [h]
  rfl

/-- C4 witness: the amended statement at a concrete configuration. -/
theorem validate_returns_bool_c4_witness :
    validate_order ⟨-5, 1⟩ oracleFlip0 ord0 md0 rm0 =
      decide ((-(23/10) : ℚ) < -5) := by
  have h : (parallel_simulated_annealing oracleFlip0 1 4
      (build_qubo_model ord0 md0 rm0) 1000 100 (99/100)).2 =
      some (-(23/10)) := by
    rw [sa_flip0_result 1000 (by norm_num) 100 (99/100)]
  exact validate_returns_bool_c4 ⟨-5, 1⟩ oracleFlip0 ord0 md0 rm0 (-(23/10)) h

/-- C4 counterexample: two random streams which make the search find
different best energies produce identical return values of
`validate_order`, so the returned value cannot contain the energy (nor any
latency): the source returns the bare Boolean, not a decision record. -/
theorem decision_fields_counterexample_c4 :
    validate_order ⟨-5, 1⟩ oracleFlip0 ord0 md0 rm0 =
      validate_order ⟨-5, 1⟩ oracleFlip1 ord0 md0 rm0 ∧
    (parallel_simulated_annealing oracleFlip0 1 4
        (build_qubo_model ord0 md0 rm0) 1000 100 (99/100)).2 ≠
      (parallel_simulated_annealing oracleFlip1 1 4
        (build_qubo_model ord0 md0 rm0) 1000 100 (99/100)).2 := by
  have h0 := sa_flip0_result 1000 (by norm_num) 100 (99/100)
  have h1 := sa_flip1_result 1000 100 (99/100)
  constructor
  · have v0 : validate_order ⟨-5, 1⟩ oracleFlip0 ord0 md0 rm0 = false := by
      simp only [validate_order]
      rw [h0]
      norm_num [ltThreshold]
    have v1 : validate_order ⟨-5, 1⟩ oracleFlip1 ord0 md0 rm0 = false := by
      simp only [validate_order]
      rw [h1]
      norm_num [ltThreshold]
    rw [v0, v1]
  · rw [h0, h1]
    norm_num

/-- The `results.append` loop of `batch_validate_orders`, with the running
slot index made explicit: length preservation and per-slot content. -/
lemma batch_validate_aux (cfg : ValidatorConfig)
    (oracleSeq : ℕ → ℕ → RunOracle) (md : MarketData) (rm : RiskMetrics) :
    ∀ (orders : List Order) (k : ℕ),
      (batch_validate_orders cfg oracleSeq k orders md rm).length =
        orders.length ∧
      ∀ i, i < orders.length →
        (batch_validate_orders cfg oracleSeq k orders md rm).getD i false =
          validate_order cfg (oracleSeq (k + i)) (orders.getD i ⟨0, 0⟩) md
            rm := by
  intro orders
  induction orders with
  | nil => exact fun k => ⟨rfl, fun i hi => absurd hi (by simp)⟩
  | cons o rest ih =>
      intro k
      refine ⟨by simp [batch_validate_orders, (ih (k + 1)).1], ?_⟩
      intro i hi
      cases i with
      | zero => simp [batch_validate_orders]
      | succ j =>
          have h2 := (ih (k + 1)).2 j (by simpa using hi)
          simp only [batch_validate_orders, List.getD_cons_succ]
          have hk : k + (j + 1) = (k + 1) + j := by omega
          rw [hk]
          exact h2

/-- C5: batch validation returns one result per order, in input order:
the output has the same length as the input and the `i`-th entry is the
result of validating the `i`-th order with the shared market data and
risk metrics. -/
theorem batch_order_preserving_c5 (cfg : ValidatorConfig)
    (oracleSeq : ℕ → ℕ → RunOracle) (orders : List Order)
    (md : MarketData) (rm : RiskMetrics) :
    (batch_validate_orders cfg oracleSeq 0 orders md rm).length =
      orders.length ∧
    ∀ i, i < orders.length →
      (batch_validate_orders cfg oracleSeq 0 orders md rm).getD i false =
        validate_order cfg (oracleSeq i) (orders.getD i ⟨0, 0⟩) md rm := by
  have h := batch_validate_aux cfg oracleSeq md rm orders 0
  exact ⟨h.1, fun i hi => by simpa using h.2 i hi⟩

/-- C5 witness: a singleton batch, evaluated at slot 0. -/
theorem batch_order_preserving_c5_witness :
    (batch_validate_orders ⟨-1, 1⟩ (fun _ => oracleFlip0) 0 [ord0] md0
        rm0).length = 1 ∧
    (batch_validate_orders ⟨-1, 1⟩ (fun _ => oracleFlip0) 0 [ord0] md0
        rm0).getD 0 false =
      validate_order ⟨-1, 1⟩ ((fun _ => oracleFlip0) 0)
        (([ord0] : List Order).getD 0 ⟨0, 0⟩) md0 rm0 :=
  ⟨(batch_order_preserving_c5 ⟨-1, 1⟩ (fun _ => oracleFlip0) [ord0] md0
      rm0).1,
   (batch_order_preserving_c5 ⟨-1, 1⟩ (fun _ => oracleFlip0) [ord0] md0
      rm0).2 0 (by norm_num)⟩

/-- C6 (amended): the search performs no validation of its tunables.
With `num_parallel_runs = 0` (below the spec's minimum of 1) it silently
returns the zero state with energy `+∞` for any cooling rate and
iteration count, and with one run it returns that run's result for any
cooling rate and iteration count whatsoever — there is no configuration
check and no error path. -/
theorem sa_no_validation_c6 (oracle : ℕ → RunOracle) (num_vars : ℕ)
    (qubo : QuboM) (num_iterations : ℕ) (t c : ℚ) :
    parallel_simulated_annealing oracle 0 num_vars qubo num_iterations t c =
      (List.replicate num_vars 0, none) ∧
    parallel_simulated_annealing oracle 1 num_vars qubo num_iterations t c =
      ((runAnneal qubo num_iterations t c (oracle 0)).localBest,
        some (runAnneal qubo num_iterations t c (oracle 0)).localBestE) :=
  ⟨rfl, sa_one_thread oracle num_vars qubo num_iterations t c⟩

/-- C6 counterexample: `cooling_rate = 2` is outside `(0,1)` (the spec's
validity predicate rejects it), yet the search does not fail: it runs and
returns a best state that differs from the initial sentinel, so search
work was performed and no `ConfigurationError` exists. -/
theorem config_error_counterexample_c6 :
    configValid 3 2 1 = false ∧
    parallel_simulated_annealing oracleFlip0 1 4
        (build_qubo_model ord0 md0 rm0) 3 100 2 =
      ([1, 0, 0, 0], some (-(23/10))) ∧
    ([1, 0, 0, 0] : List ℚ) ≠ List.replicate 4 0 := by
  refine ⟨by decide, sa_flip0_result 3 (by norm_num) 100 2, by decide⟩

/-- C7 (amended): the source performs no finiteness validation: a NaN
`volatility` propagates through the `numpy` arithmetic into the QUBO
matrix (entries `Q[1,1]` and `Q[0,1]`) and the builder returns normally
instead of raising any error. -/
theorem qubo_nan_propagation_c7 (o : OrderE) (md : MarketData)
    (rm : RiskMetricsE) (h : rm.volatility = ERat.nan) :
    build_qubo_modelE o md rm 1 1 = ERat.nan ∧
    build_qubo_modelE o md rm 0 1 = ERat.nan := by
  have hmul : ∀ x : ERat, ERat.mul x ERat.nan = ERat.nan := by
    intro x; cases x <;> rfl
  constructor
  · show ERat.mul (ERat.mul (ERat.finite (9/5)) o.size) rm.volatility =
      ERat.nan
    rw [h, hmul]
  · show ERat.mul (ERat.finite (1/2)) rm.volatility = ERat.nan
    rw [h, hmul]

/-- C7 witness: the NaN propagation at a concrete order and metrics. -/
theorem qubo_nan_propagation_c7_witness :
    build_qubo_modelE ⟨ERat.finite 10, ERat.finite 2⟩ md0
        ⟨ERat.nan, ERat.finite (1/5), ERat.finite (3/10), ERat.finite (1/2)⟩
        1 1 = ERat.nan ∧
    build_qubo_modelE ⟨ERat.finite 10, ERat.finite 2⟩ md0
        ⟨ERat.nan, ERat.finite (1/5), ERat.finite (3/10), ERat.finite (1/2)⟩
        0 1 = ERat.nan :=
  qubo_nan_propagation_c7 ⟨ERat.finite 10, ERat.finite 2⟩ md0
    ⟨ERat.nan, ERat.finite (1/5), ERat.finite (3/10), ERat.finite (1/2)⟩ rfl

/-- C7 counterexample: for an order whose `volatility` is NaN the QUBO
construction is not prevented by any `InvalidInputError` — it completes
and returns a matrix that simply contains NaN alongside the other,
normally computed entries. -/
theorem invalid_input_counterexample_c7 :
    build_qubo_modelE ⟨ERat.finite 10, ERat.finite 2⟩ md0
        ⟨ERat.nan, ERat.finite (1/5), ERat.finite (3/10), ERat.finite (1/2)⟩
        1 1 = ERat.nan ∧
    build_qubo_modelE ⟨ERat.finite 10, ERat.finite 2⟩ md0
        ⟨ERat.nan, ERat.finite (1/5), ERat.finite (3/10), ERat.finite (1/2)⟩
        0 0 = ERat.finite (-(23/5)) := by
  constructor
  · rfl
  · show ERat.mul (ERat.finite (-(23/10))) (ERat.finite 2) =
      ERat.finite (-(23/5))
    show ERat.finite (-(23/10) * 2) = ERat.finite (-(23/5))
    norm_num

/-- C8 (amended): at temperature 0 the acceptance test accepts exactly
the strictly improving moves — but not by treating the exponential as 0:
for a worse move the IEEE evaluation gives `exp((curE-newE)/0) =
exp(-inf) = 0` and `rand < 0` is false, while for an equal-energy move it
gives `exp(0/0) = exp(NaN) = NaN` and `rand < NaN` is false. -/
theorem zero_temp_accept_c8 (expFin : ℚ → ℚ) (curE newE rand : ℚ)
    (h : 0 ≤ rand) :
    metropolisAccept expFin (ERat.finite curE) (ERat.finite newE)
        (ERat.finite 0) (ERat.finite rand) = decide (newE < curE) := by
  unfold metropolisAccept
  by_cases hlt : newE < curE
  · simp [ERat.lt, hlt]
  · rw [if_neg (by simp [ERat.lt, hlt])]
    rw [show ERat.sub (ERat.finite curE) (ERat.finite newE) =
      ERat.finite (curE - newE) from rfl]
    have hle : curE - newE ≤ 0 := sub_nonpos.mpr (not_lt.mp hlt)
    by_cases hz : curE - newE = 0
    · rw [show ERat.div (ERat.finite (curE - newE)) (ERat.finite 0) =
        ERat.nan from by simp [ERat.div, hz]]
      simp [ERat.exp, ERat.lt, hlt]
    · have hneg : curE - newE < 0 := lt_of_le_of_ne hle hz
      rw [show ERat.div (ERat.finite (curE - newE)) (ERat.finite 0) =
        ERat.ninf from by simp [ERat.div, hz, not_lt.mpr hneg.le]]
      rw [show ERat.exp expFin ERat.ninf = ERat.finite 0 from rfl]
      simp [ERat.lt, hlt, not_lt.mpr h]

/-- C8 witness: at temperature 0 a strictly improving move is accepted. -/
theorem zero_temp_accept_c8_witness :
    metropolisAccept (fun _ => 1) (ERat.finite 1) (ERat.finite 0)
        (ERat.finite 0) (ERat.finite (1/2)) = decide ((0 : ℚ) < 1) :=
  zero_temp_accept_c8 (fun _ => 1) 1 0 (1/2) (by norm_num)

/-- C8 counterexample: at temperature 0 with an equal-energy proposal the
Metropolis exponential does not evaluate to 0 — the division `0/0`
produces NaN and the exponential of NaN is NaN, so NaN does arise inside
the acceptance test (the move is still rejected, because comparison with
NaN is false). -/
theorem exp_nan_counterexample_c8 :
    ERat.div (ERat.sub (ERat.finite 0) (ERat.finite 0)) (ERat.finite 0) =
      ERat.nan ∧
    ERat.exp (fun _ => 1)
        (ERat.div (ERat.sub (ERat.finite 0) (ERat.finite 0))
          (ERat.finite 0)) ≠ ERat.finite 0 ∧
    metropolisAccept (fun _ => 1) (ERat.finite 0) (ERat.finite 0)
        (ERat.finite 0) (ERat.finite 0) = false := by
  refine ⟨?_, ?_, ?_⟩
  · show ERat.div (ERat.finite (0 - 0)) (ERat.finite 0) = ERat.nan
    norm_num [ERat.div]
  · show ERat.exp (fun _ => 1)
        (ERat.div (ERat.finite (0 - 0)) (ERat.finite 0)) ≠ ERat.finite 0
    norm_num [ERat.div, ERat.exp]
    intro hcontra
    exact ERat.noConfusion hcontra
  · show (if ERat.lt (ERat.finite 0) (ERat.finite 0) = true then true
      else ERat.lt (ERat.finite 0)
        (ERat.exp (fun _ => 1)
          (ERat.div (ERat.sub (ERat.finite 0) (ERat.finite 0))
            (ERat.finite 0)))) = false
    norm_num [ERat.lt, ERat.sub, ERat.div, ERat.exp]

/-- A well-formed annealing state vector: length 4 with 0/1 entries,
as produced by `np.random.randint(0, 2, 4)`. -/
def goodState (s : List ℚ) : Prop :=
  s.length = 4 ∧ ∀ x ∈ s, x = 0 ∨ x = 1

/-- Reading any position of a 0/1 list (with default 0) gives 0 or 1. -/
lemma getD_binary (s : List ℚ) (h : ∀ x ∈ s, x = 0 ∨ x = 1) (i : ℕ) :
    s.getD i 0 = 0 ∨ s.getD i 0 = 1 := by
  induction s generalizing i with
  | nil => left; rfl
  | cons a t ih =>
      cases i with
      | zero => exact h a (by simp)
      | succ j => exact ih (fun x hx => h x (by simp [hx])) j

/-- Flipping one coordinate preserves well-formedness. -/
lemma flipState_goodState (s : List ℚ) (i : ℕ) (h : goodState s) :
    goodState (flipState s i) := by
  refine ⟨by simp [flipState, h.1], ?_⟩
  intro x hx
  rcases List.mem_or_eq_of_mem_set hx with hmem | heq
  · exact h.2 x hmem
  · rcases getD_binary s h.2 i with h0 | h1
    · right; rw [heq, h0]; norm_num
    · left; rw [heq, h1]; norm_num

/-- The loop invariant of one annealing run: the current and local-best
states are well-formed and their recorded energies match the evaluator. -/
def runInv (qubo : QuboM) (st : RunState) : Prop :=
  goodState st.current ∧ st.currentE = calculate_energy st.current qubo ∧
  goodState st.localBest ∧ st.localBestE = calculate_energy st.localBest qubo

/-- One iteration preserves the run invariant. -/
lemma annealStep_runInv (qubo : QuboM) (c : ℚ) (o : RunOracle) (k : ℕ)
    (st : RunState) (h : runInv qubo st) :
    runInv qubo (annealStep qubo c o k st) := by
  obtain ⟨h1, h2, h3, h4⟩ := h
  simp only [annealStep]
  split
  · split
    · exact ⟨flipState_goodState _ _ h1, rfl, flipState_goodState _ _ h1, rfl⟩
    · exact ⟨flipState_goodState _ _ h1, rfl, h3, h4⟩
  · exact ⟨h1, h2, h3, h4⟩

/-- The whole iteration loop preserves the run invariant. -/
lemma foldl_runInv (qubo : QuboM) (c : ℚ) (o : RunOracle) (l : List ℕ) :
    ∀ st, runInv qubo st →
      runInv qubo (l.foldl (fun st k => annealStep qubo c o k st) st) := by
  induction l with
  | nil => exact fun st h => h
  | cons x xs ih =>
      intro st h
      rw [List.foldl_cons]
      exact ih _ (annealStep_runInv qubo c o x st h)

/-- A full run started from a well-formed random state satisfies the
run invariant. -/
lemma runAnneal_runInv (qubo : QuboM) (n : ℕ) (t c : ℚ) (o : RunOracle)
    (h : goodState o.initState) : runInv qubo (runAnneal qubo n t c o) := by
  simp only [runAnneal]
  exact foldl_runInv qubo c o (List.range n) _ ⟨h, rfl, h, rfl⟩

/-- Once the global best holds a completed run's result, the remaining
reduction steps keep it a well-formed state paired with its own energy. -/
lemma sa_foldl_preserves (oracle : ℕ → RunOracle) (qubo : QuboM) (n : ℕ)
    (t c : ℚ) (hinit : ∀ r, goodState (oracle r).initState) (l : List ℕ) :
    ∀ b : List ℚ × Option ℚ,
      goodState b.1 ∧ b.2 = some (calculate_energy b.1 qubo) →
      goodState (l.foldl (fun best r =>
          let rs := runAnneal qubo n t c (oracle r)
          if ltInf rs.localBestE best.2 then (rs.localBest, some rs.localBestE)
          else best) b).1 ∧
        (l.foldl (fun best r =>
          let rs := runAnneal qubo n t c (oracle r)
          if ltInf rs.localBestE best.2 then (rs.localBest, some rs.localBestE)
          else best) b).2 =
          some (calculate_energy (l.foldl (fun best r =>
            let rs := runAnneal qubo n t c (oracle r)
            if ltInf rs.localBestE best.2 then
              (rs.localBest, some rs.localBestE)
            else best) b).1 qubo) := by
  induction l with
  | nil => exact fun b hb => hb
  | cons x xs ih =>
      intro b hb
      rw [List.foldl_cons]
      apply ih
      obtain ⟨hr1, hr2, hr3, hr4⟩ :=
        runAnneal_runInv qubo n t c (oracle x) (hinit x)
      cases hc : ltInf (runAnneal qubo n t c (oracle x)).localBestE b.2 with
      | true =>
          simp only [hc, if_true]
          exact ⟨hr3, by rw [hr4]⟩
      | false =>
          simp only [hc]
          simpa using hb


/-- C10: with at least one run and well-formed random initial states, the
search returns an internally consistent pair: the energy component equals
`_calculate_energy` of the state component, and the state is a binary
vector of length 4. -/
theorem annealing_consistent_c10 (oracle : ℕ → RunOracle)
    (num_threads num_iterations : ℕ) (qubo : QuboM) (t c : ℚ)
    (hruns : 1 ≤ num_threads)
    (hinit : ∀ r, goodState (oracle r).initState) :
    (parallel_simulated_annealing oracle num_threads 4 qubo num_iterations
        t c).1.length = 4 ∧
    (∀ x ∈ (parallel_simulated_annealing oracle num_threads 4 qubo
        num_iterations t c).1, x = 0 ∨ x = 1) ∧
    (parallel_simulated_annealing oracle num_threads 4 qubo num_iterations
        t c).2 =
      some (calculate_energy
        (parallel_simulated_annealing oracle num_threads 4 qubo
          num_iterations t c).1 qubo) := by
  obtain ⟨m, rfl⟩ : ∃ m, num_threads = m + 1 :=
    ⟨num_threads - 1, (Nat.succ_pred_eq_of_pos hruns).symm⟩
  have key : goodState (parallel_simulated_annealing oracle (m + 1) 4 qubo
      num_iterations t c).1 ∧
      (parallel_simulated_annealing oracle (m + 1) 4 qubo num_iterations
        t c).2 =
      some (calculate_energy (parallel_simulated_annealing oracle (m + 1) 4
        qubo num_iterations t c).1 qubo) := by
    unfold parallel_simulated_annealing
    rw [List.range_succ_eq_map, List.foldl_cons]
    apply sa_foldl_preserves oracle qubo num_iterations t c hinit
    obtain ⟨hr1, hr2, hr3, hr4⟩ :=
      runAnneal_runInv qubo num_iterations t c (oracle 0) (hinit 0)
    have hnone : (List.replicate 4 (0:ℚ), (none : Option ℚ)).2 = none := rfl
    simp only [hnone, ltInf, if_true]
    exact ⟨hr3, by rw [hr4]⟩
  exact ⟨key.1.1, key.1.2, key.2⟩

/-- C10 witness: the consistency at a concrete oracle and matrix. -/
theorem annealing_consistent_c10_witness :
    (parallel_simulated_annealing oracleFlip0 1 4
        (build_qubo_model ord0 md0 rm0) 1 100 (99/100)).1.length = 4 ∧
    (∀ x ∈ (parallel_simulated_annealing oracleFlip0 1 4
        (build_qubo_model ord0 md0 rm0) 1 100 (99/100)).1,
      x = 0 ∨ x = 1) ∧
    (parallel_simulated_annealing oracleFlip0 1 4
        (build_qubo_model ord0 md0 rm0) 1 100 (99/100)).2 =
      some (calculate_energy
        (parallel_simulated_annealing oracleFlip0 1 4
          (build_qubo_model ord0 md0 rm0) 1 100 (99/100)).1
        (build_qubo_model ord0 md0 rm0)) :=
  annealing_consistent_c10 oracleFlip0 1 1 (build_qubo_model ord0 md0 rm0)
    100 (99/100) (by norm_num)
    (fun r => ⟨rfl, fun x hx => by simp [oracleFlip0] at hx; simp [hx]⟩)

end RiskEye
